import Mathlib

/-!
Shallow embedding of `app.py` (NBA Fantasy Draft Board).

The embedding models, faithfully to the source:
  * the text normalizer `_clean` (Python `re.sub(r"\s+", " ", s or "").strip()`);
  * the text-line fallback extractor (lines 58-91 of `app.py`);
  * the table extractor (lines 25-56), including the cell accessor `g`;
  * the record consolidator (sort / drop_duplicates / head(300) / rank,
    lines 96-104) and the CSV path's sort / head(300) / rank (lines 123-126);
  * the draft-state operations (lines 151-152, 175-178).

Python floats parsed from decimal literals are modelled as rationals (ℚ);
`None`/NaN scores are `Option.none`.  Pandas' stable multi-key sort
(`sort_values` via `np.lexsort`) is modelled by `List.insertionSort`, which
is the (unique) stable sort for the same total preorder.
-/

namespace NBADraft

/-! ### Character classes (ASCII, matching Python `\s`, `\d`, `[A-Z]`, `\w`) -/

def isWs (c : Char) : Bool :=
  c = ' ' || c = '\t' || c = '\n' || c = '\r' || c = '\x0b' || c = '\x0c'

def isDigitCh (c : Char) : Bool := '0' ≤ c && c ≤ '9'

def isUpperCh (c : Char) : Bool := 'A' ≤ c && c ≤ 'Z'

def isWordCh (c : Char) : Bool :=
  isDigitCh c || isUpperCh c || ('a' ≤ c && c ≤ 'z') || c = '_'

/-! ### The text normalizer `_clean` -/

/-- Collapse each whitespace run to a single space; the flag records whether
the previous character was whitespace. -/
def collapseWsGo : Bool → List Char → List Char
  | _, [] => []
  | prev, c :: cs =>
    if isWs c then
      if prev then collapseWsGo true cs else ' ' :: collapseWsGo true cs
    else c :: collapseWsGo false cs

/-- Python `str.strip()` on a character list. -/
def stripChars (l : List Char) : List Char :=
  ((l.dropWhile isWs).reverse.dropWhile isWs).reverse

/-- Python `re.sub(r"\s+", " ", s).strip()`. -/
def cleanStr (s : String) : String :=
  String.mk (stripChars (collapseWsGo false s.data))

/-- The source's `_clean`: handles `None` via `s or ""`. -/
def pyClean (s : Option String) : String := cleanStr (s.getD "")

/-! ### Splitting on whitespace (Python `str.split()` with no argument) -/

def splitWsGo (cur : List Char) : List Char → List (List Char)
  | [] => if cur.isEmpty then [] else [cur.reverse]
  | c :: cs =>
    if isWs c then
      if cur.isEmpty then splitWsGo [] cs else cur.reverse :: splitWsGo [] cs
    else splitWsGo (c :: cur) cs

def splitWs (l : List Char) : List (List Char) := splitWsGo [] l

/-! ### Lowercasing (Python `.lower()` / `re.I`, ASCII inputs) -/

def lowerChars (l : List Char) : List Char := l.map Char.toLower

def strToLower (s : String) : String := String.mk (lowerChars s.data)

/-! ### Substring and word-token helpers for the skip regex -/

def listStartsWith : List Char → List Char → Bool
  | _, [] => true
  | [], _ :: _ => false
  | h :: hs, n :: ns => h = n && listStartsWith hs ns

def containsSub : List Char → List Char → Bool
  | [], needle => needle.isEmpty
  | h :: hs, needle => listStartsWith (h :: hs) needle || containsSub hs needle

/-- Maximal runs of word characters (used to decide `\bBL(END)?\b`). -/
def wordTokensGo (cur : List Char) : List Char → List (List Char)
  | [] => if cur.isEmpty then [] else [cur.reverse]
  | c :: cs =>
    if isWordCh c then wordTokensGo (c :: cur) cs
    else if cur.isEmpty then wordTokensGo [] cs else cur.reverse :: wordTokensGo [] cs

def wordTokens (l : List Char) : List (List Char) := wordTokensGo [] l

/-- Python `re.search(r"\bBL(END)?\b", s, re.I)` on an already-lowercased list:
some maximal word-character run is exactly `bl` or `blend`. -/
def hasBlWord (l : List Char) : Bool :=
  (wordTokens l).any (fun t => t = ['b', 'l'] || t = ['b', 'l', 'e', 'n', 'd'])

/-- Does a match of `https?://\S+` start at the head of `l` (lowercased input)? -/
def urlAt (l : List Char) : Bool :=
  (listStartsWith l ("http://".data) && (match l.drop 7 with
    | c :: _ => !isWs c
    | [] => false)) ||
  (listStartsWith l ("https://".data) && (match l.drop 8 with
    | c :: _ => !isWs c
    | [] => false))

def hasUrl : List Char → Bool
  | [] => false
  | c :: cs => urlAt (c :: cs) || hasUrl cs

/-! ### Numeric parsing (Python `float` on a `\d+(\.\d+)?` match) -/

def digitsToNat (ds : List Char) : Nat :=
  ds.foldl (fun n c => 10 * n + (c.toNat - 48)) 0

/-- Rational value of an integer digit run with an optional fraction run:
the exact value `int.frac` denotes, as a fraction over a power of ten. -/
def ratNum (intDs fracDs : List Char) : ℚ :=
  mkRat (digitsToNat intDs * 10 ^ fracDs.length + digitsToNat fracDs) (10 ^ fracDs.length)

/-! ### Raw records and roster entries -/

/-- A raw `(player, team, pos, blend)` tuple appended to `rows` by either
extractor; `blend` is `none` when no numeric token was recovered. -/
structure RawRecord where
  player : String
  team : String
  pos : String
  blend : Option ℚ
deriving DecidableEq, Repr

/-- One row of the final DataFrame `[Player, Team, Pos, Blend, ADP_Rank]`. -/
structure RosterEntry where
  player : String
  team : String
  pos : String
  blend : Option ℚ
  adp_rank : Option Nat
deriving DecidableEq, Repr

/-- The result DataFrame: its column schema plus its rows. -/
structure Roster where
  columns : List String
  rows : List RosterEntry
deriving DecidableEq, Repr

def rosterColumns : List String := ["Player", "Team", "Pos", "Blend", "ADP_Rank"]

/-- `pd.DataFrame(columns=["Player","Team","Pos","Blend","ADP_Rank"])`. -/
def emptyRoster : Roster := ⟨rosterColumns, []⟩

/-! ### Text-line fallback extractor (lines 58-91 of `app.py`) -/

/-- Match of `(\d+(?:\.\d+)?)\s*$` at the end of `l`: on success, the value of
the trailing number and the characters before the whole match.  Worked out
from the right: optional trailing whitespace, a digit run, optionally preceded
by a dot that is itself preceded by a digit run. -/
def splitTrailingNumber (l : List Char) : Option (ℚ × List Char) :=
  let r := l.reverse.dropWhile isWs
  let d2 := r.takeWhile isDigitCh
  if d2.isEmpty then none
  else
    let r2 := r.drop d2.length
    match r2 with
    | '.' :: r3 =>
      let d1 := r3.takeWhile isDigitCh
      if d1.isEmpty then some (ratNum d2.reverse [], r2.reverse)
      else some (ratNum d1.reverse d2.reverse, (r3.drop d1.length).reverse)
    | _ => some (ratNum d2.reverse [], r2.reverse)

/-- Python `re.sub(r"^\s*\d+[\.\-]?\s*", "", body)`: drop a leading
enumeration index like `12.` or `12 -`. -/
def dropLeadingIndex (l : List Char) : List Char :=
  let l1 := l.dropWhile isWs
  let d := l1.takeWhile isDigitCh
  if d.isEmpty then l
  else
    let l2 := l1.drop d.length
    let l3 := match l2 with
      | '.' :: t => t
      | '-' :: t => t
      | _ => l2
    l3.dropWhile isWs

/-- First match of `\(([A-Z/]+)\)`: returns the group, the characters before
the `(` and the characters after the `)`. -/
def extractParen : List Char → Option (List Char × List Char × List Char)
  | [] => none
  | c :: cs =>
    if c = '(' then
      let run := cs.takeWhile (fun d => isUpperCh d || d = '/')
      match run, cs.drop run.length with
      | _ :: _, ')' :: rest => some (run, [], rest)
      | _, _ => (extractParen cs).map (fun p => (p.1, c :: p.2.1, p.2.2))
    else
      (extractParen cs).map (fun p => (p.1, c :: p.2.1, p.2.2))

/-- Python `re.fullmatch(r"[A-Z]{2,4}", t)`. -/
def isTeamCode (t : List Char) : Bool :=
  2 ≤ t.length && t.length ≤ 4 && t.all isUpperCh

/-- The skip test of line 65: a URL-like token, document-chrome vocabulary, or
a standalone `BL`/`BLEND` word, all case-insensitive. -/
def skipLine (line : String) : Bool :=
  let low := lowerChars line.data
  containsSub low ("adp data".data) ||
  containsSub low ("hashtag basketball".data) ||
  containsSub low ("season".data) ||
  containsSub low ("updated".data) ||
  hasUrl low ||
  hasBlWord low

/-- Python `re.match(r"^https?://", s, re.I)`. -/
def startsWithUrlCI (s : String) : Bool :=
  listStartsWith (lowerChars s.data) ("http://".data) ||
  listStartsWith (lowerChars s.data) ("https://".data)

/-- The per-line body of the text fallback (lines 60-91): normalize, apply the
skip test, require a trailing number (the blend score), strip a leading
enumeration index, peel a parenthesized position and a trailing 2-4-uppercase
team code, and keep the row only if the remaining name has ≥ 2 tokens. -/
def parseTextLine (raw : String) : Option RawRecord :=
  let line := cleanStr raw
  if line = "" then none
  else if skipLine line then none
  else
    match splitTrailingNumber line.data with
    | none => none
    | some (blend, beforeNum) =>
      let body0 := stripChars beforeNum
      let body1 := dropLeadingIndex body0
      let posBody : String × List Char :=
        match extractParen body1 with
        | some (p, b, a) => (String.mk p, stripChars (b ++ a))
        | none => ("", body1)
      let parts := splitWs posBody.2
      let teamParts : String × List (List Char) :=
        match parts.getLast? with
        | some t => if isTeamCode t then (String.mk t, parts.dropLast) else ("", parts)
        | none => ("", parts)
      let player := cleanStr (String.intercalate " " (teamParts.2.map String.mk))
      if startsWithUrlCI player then none
      else if 2 ≤ (splitWs player.data).length then
        some ⟨player, teamParts.1, posBody.1, some blend⟩
      else none

/-- `text.splitlines()` (modelled as splitting on newline) filtered through
the per-line fallback extractor. -/
def splitLinesGo (cur : List Char) : List Char → List String
  | [] => [String.mk cur.reverse]
  | c :: cs =>
    if c = '\n' then String.mk cur.reverse :: splitLinesGo [] cs
    else splitLinesGo (c :: cur) cs

def splitLines (s : String) : List String := splitLinesGo [] s.data

def extractTextRows (text : String) : List RawRecord :=
  (splitLines text).filterMap parseTextLine

/-! ### Table extractor (lines 25-56 of `app.py`) -/

/-- A pdfplumber table cell: may be absent (`None`) or hold raw text. -/
abbrev Cell := Option String

/-- Python `" ".join([_clean(c) for c in r if c])`: keep truthy cells, clean
each, join with single spaces. -/
def joinedHeader (r : List Cell) : String :=
  String.intercalate " " (((r.filterMap id).filter (fun s => s ≠ "")).map cleanStr)

/-- Header detection (lines 27-31): first row among the first three whose
joined cleaned text contains `BL`/`BLEND` as a whole word, case-insensitive. -/
def findHeaderIdx (tbl : List (List Cell)) : Option Nat :=
  (tbl.take 3).findIdx? (fun r => hasBlWord (lowerChars (joinedHeader r).data))

/-- Line 33: each header cell is cleaned; an empty cell becomes `C{j}`. -/
def headersOf (row : List Cell) : List String :=
  row.enum.map (fun p => let h := pyClean p.2; if h = "" then "C" ++ toString p.1 else h)

/-- `colmap = {h.lower(): j for j, h in enumerate(headers)}` followed by
`colmap.get(key)`: the LAST index whose lowered header equals `key`
(a later duplicate key overwrites an earlier one in the dict). -/
def colmapGet (headers : List String) (key : String) : Option Nat :=
  ((headers.enum.filter (fun p => strToLower p.2 = key)).getLast?).map (fun p => p.1)

/-- Lines 36-39: first column whose cleaned, lowered header fully matches
`bl(end)?`. -/
def blendIdxOf (headers : List String) : Option Nat :=
  headers.findIdx? (fun h =>
    strToLower (cleanStr h) = "bl" || strToLower (cleanStr h) = "blend")

/-- The column indices located from the header row (lines 40-42). -/
structure ColIdx where
  player_idx : Nat
  team_idx : Option Nat
  pos_idx : Option Nat
  blend_idx : Option Nat
deriving DecidableEq, Repr

/-- The inner accessor `g` (lines 45-47): `r[idx]`, with any exception
(an out-of-range index) turned into `None`. -/
def g (r : List Cell) (idx : Nat) : Cell := (r.get? idx).getD none

/-- Python `any(r)`: some cell is truthy (present and a non-empty string). -/
def anyTruthy (r : List Cell) : Bool :=
  r.any (fun c => match c with
    | some s => s ≠ ""
    | none => false)

/-- `re.search(r"(\d+(?:\.\d+)?)", s)`: value of the leftmost number. -/
def firstNumber : List Char → Option ℚ
  | [] => none
  | c :: cs =>
    if isDigitCh c then
      let d1 := (c :: cs).takeWhile isDigitCh
      let r := (c :: cs).drop d1.length
      match r with
      | '.' :: r2 =>
        let d2 := r2.takeWhile isDigitCh
        if d2.isEmpty then some (ratNum d1 []) else some (ratNum d1 d2)
      | _ => some (ratNum d1 [])
    else firstNumber cs

/-- One data row of a detected table (lines 43-56): skip all-falsy rows and
rows whose cleaned player cell has fewer than two tokens; read team/pos/blend
cells through `g` when their columns were located; the blend value is the
first number found in the cleaned blend cell, if any. -/
def processDataRow (ci : ColIdx) (r : List Cell) : Option RawRecord :=
  if !anyTruthy r then none
  else
    let player := pyClean (g r ci.player_idx)
    if player = "" || (splitWs player.data).length < 2 then none
    else
      let team := match ci.team_idx with
        | some j => pyClean (g r j)
        | none => ""
      let pos := match ci.pos_idx with
        | some j => pyClean (g r j)
        | none => ""
      let blend_raw := match ci.blend_idx with
        | some j => pyClean (g r j)
        | none => ""
      let blend := if blend_raw = "" then none else firstNumber blend_raw.data
      some ⟨player, team, pos, blend⟩

/-- Lines 25-56 for one table: locate a header; when none is found the table
contributes nothing; otherwise process every row after the header. -/
def extractTableRows (tbl : List (List Cell)) : List RawRecord :=
  match findHeaderIdx tbl with
  | none => []
  | some i =>
    let headers := headersOf ((tbl.get? i).getD [])
    let ci : ColIdx :=
      ⟨(colmapGet headers "player").getD 0, colmapGet headers "team",
        colmapGet headers "pos", blendIdxOf headers⟩
    (tbl.drop (i + 1)).filterMap (processDataRow ci)

/-- One PDF page as seen by the extraction loop: its detected tables and its
extracted plain text. -/
structure Page where
  tables : List (List (List Cell))
  text : String

/-- Rows contributed by one page: all table rows, then all text-fallback rows
(both extractors run on every page; lines 25 and 58-60). -/
def pageRows (p : Page) : List RawRecord :=
  (p.tables.map extractTableRows).flatten ++ extractTextRows p.text

/-- The `rows` list accumulated over all pages (lines 21-91). -/
def extractRows (pages : List Page) : List RawRecord :=
  (pages.map pageRows).flatten

/-! ### Record consolidation (lines 96-104) and the CSV path (lines 118-126) -/

/-- Blend comparison with `None`/NaN as plus infinity (`na_position="last"`). -/
def blendLt : Option ℚ → Option ℚ → Prop
  | some x, some y => x < y
  | some _, none => True
  | none, _ => False

instance : ∀ a b : Option ℚ, Decidable (blendLt a b)
  | some x, some y => inferInstanceAs (Decidable (x < y))
  | some _, none => inferInstanceAs (Decidable True)
  | none, some _ => inferInstanceAs (Decidable False)
  | none, none => inferInstanceAs (Decidable False)

/-- The sort key of `sort_values(["Blend","Player"], ascending=[True,True],
na_position="last")`: lexicographic on (blend with none last, player). -/
def recLE (a b : RawRecord) : Prop :=
  blendLt a.blend b.blend ∨ (a.blend = b.blend ∧ a.player ≤ b.player)

instance : DecidableRel recLE := fun a b =>
  inferInstanceAs
    (Decidable (blendLt a.blend b.blend ∨ (a.blend = b.blend ∧ a.player ≤ b.player)))

/-- Pandas' multi-key sort is the stable sort for `recLE`; `insertionSort`
computes exactly that stable sort. -/
def sortRecords (l : List RawRecord) : List RawRecord := List.insertionSort recLE l

/-- `drop_duplicates(subset=["Player"], keep="first")`: keep a row iff its
player name has not been seen earlier in the list. -/
def dedupGo (seen : List String) : List RawRecord → List RawRecord
  | [] => []
  | r :: rs =>
    if seen.contains r.player then dedupGo seen rs
    else r :: dedupGo (r.player :: seen) rs

def dedupByPlayer (l : List RawRecord) : List RawRecord := dedupGo [] l

/-- Rank of position `i` under pandas `rank(method="first")` with
`na_option="keep"`: a NaN gets a null rank; a value `v` at `i` gets one plus
the number of earlier values `≤ v` plus the number of later values `< v`
(NaNs never counted). -/
def rankFirstAt (xs : List (Option ℚ)) (i : Nat) : Option Nat :=
  match xs[i]? with
  | some (some v) =>
    some (1 + (xs.take i).countP (fun y => y.any (fun w => w ≤ v))
            + (xs.drop i).countP (fun y => y.any (fun w => w < v)))
  | _ => none

/-- The whole rank column `df["Blend"].rank(method="first")`. -/
def pandasRankFirst (xs : List (Option ℚ)) : List (Option Nat) :=
  (List.range xs.length).map (rankFirstAt xs)

/-- Attach `ADP_Rank` (line 103 / 125): zip the rows with the rank column of
their own blend values. -/
def attachRanks (rs : List RawRecord) : List RosterEntry :=
  List.zipWith (fun (r : RawRecord) k => ⟨r.player, r.team, r.pos, r.blend, k⟩)
    rs (pandasRankFirst (rs.map (fun r => r.blend)))

/-- Lines 96-104: sort by (Blend, Player) with NaN last, de-duplicate by
player keeping the first, keep the top 300, and attach first-method ranks. -/
def consolidateRows (records : List RawRecord) : Roster :=
  ⟨rosterColumns, attachRanks ((dedupByPlayer (sortRecords records)).take 300)⟩

/-- `parse_pdf_cached` (lines 11-104): the pdfplumber import guard, the
per-page extraction, the empty-rows guard, and consolidation.  The pages are
the data pdfplumber would deliver; `avail` models whether the import at
line 14 succeeds. -/
def parse_pdf_cached (avail : Bool) (pages : List Page) : Roster :=
  if avail = false then emptyRoster
  else
    let rows := extractRows pages
    if rows = [] then emptyRoster else consolidateRows rows

/-- `parse_csv` lines 123-126, starting from the column-mapped `out` frame
(player/team/pos strings and the `to_numeric`-coerced blend of lines
118-122): sort, keep the top 300, attach ranks — with NO de-duplication. -/
def parse_csv (records : List RawRecord) : Roster :=
  ⟨rosterColumns, attachRanks ((sortRecords records).take 300)⟩

/-! ### Draft state (lines 130, 151-152, 175-178, 203) -/

/-- `remaining_df = df[~df["Player"].isin(drafted)]` (line 151). -/
def remaining_df (R : Roster) (drafted : Finset String) : List RosterEntry :=
  R.rows.filter (fun e => !(decide (e.player ∈ drafted)))

/-- `drafted_df = df[df["Player"].isin(drafted)]` (line 152). -/
def drafted_df (R : Roster) (drafted : Finset String) : List RosterEntry :=
  R.rows.filter (fun e => decide (e.player ∈ drafted))

/-- `st.session_state["drafted"].update(to_draft)` (line 177): set union. -/
def move_to_drafted (drafted selected : Finset String) : Finset String :=
  drafted ∪ selected

/-! ### Specification predicates used by the claim theorems -/

/-- Non-strict blend order with `None`/NaN as plus infinity. -/
def obLE : Option ℚ → Option ℚ → Prop
  | some x, some y => x ≤ y
  | _, none => True
  | none, some _ => False

/-- The roster-entry image of the sort key `recLE`. -/
def entryLE (a b : RosterEntry) : Prop :=
  blendLt a.blend b.blend ∨ (a.blend = b.blend ∧ a.player ≤ b.player)

/-- Shape of the `ADP_Rank` column: rows with a numeric blend get ranks
`1..M` in row order, rows with a null blend get a null rank. -/
def rankSpec (R : Roster) : Prop :=
  R.rows.map (fun e => e.adp_rank) =
    (List.range (R.rows.countP (fun e => e.blend.isSome))).map (fun i => some (i + 1)) ++
      List.replicate (R.rows.length - R.rows.countP (fun e => e.blend.isSome)) none

/-- Roster row order: non-decreasing in blend (null last), and non-decreasing
in player name among equal blends. -/
def sortedSpec (R : Roster) : Prop :=
  R.rows.Pairwise (fun a b => obLE a.blend b.blend) ∧
    R.rows.Pairwise (fun a b => a.blend = b.blend → a.player ≤ b.player)

/-! ### Order facts about the sort key -/

lemma blendLt_or (a b : Option ℚ) : blendLt a b ∨ a = b ∨ blendLt b a := by
  rcases a with _ | x <;> rcases b with _ | y
  · exact Or.inr (Or.inl rfl)
  · exact Or.inr (Or.inr trivial)
  · exact Or.inl trivial
  · rcases lt_trichotomy x y with h | h | h
    · exact Or.inl h
    · exact Or.inr (Or.inl (by rw [h]))
    · exact Or.inr (Or.inr h)

lemma blendLt_trans {a b c : Option ℚ} : blendLt a b → blendLt b c → blendLt a c := by
  rcases a with _ | x <;> rcases b with _ | y <;> rcases c with _ | z <;>
    intro h1 h2 <;>
    first
      | exact h1.elim
      | exact h2.elim
      | trivial
      | exact lt_trans h1 h2

instance : IsTotal RawRecord recLE := by
  constructor
  intro a b
  rcases blendLt_or a.blend b.blend with h | h | h
  · exact Or.inl (Or.inl h)
  · rcases le_total a.player b.player with hp | hp
    · exact Or.inl (Or.inr ⟨h, hp⟩)
    · exact Or.inr (Or.inr ⟨h.symm, hp⟩)
  · exact Or.inr (Or.inl h)

instance : IsTrans RawRecord recLE := by
  constructor
  intro a b c hab hbc
  rcases hab with h1 | ⟨e1, p1⟩
  · rcases hbc with h2 | ⟨e2, _⟩
    · exact Or.inl (blendLt_trans h1 h2)
    · exact Or.inl (by rw [← e2]; exact h1)
  · rcases hbc with h2 | ⟨e2, p2⟩
    · exact Or.inl (by rw [e1]; exact h2)
    · exact Or.inr ⟨e1.trans e2, le_trans p1 p2⟩

lemma blendLt_obLE {a b : Option ℚ} (h : blendLt a b) : obLE a b := by
  rcases a with _ | x <;> rcases b with _ | y <;>
    first
      | exact h.elim
      | trivial
      | exact le_of_lt h

lemma obLE_refl (a : Option ℚ) : obLE a a := by
  rcases a with _ | x
  · trivial
  · exact le_refl x

lemma recLE_obLE {a b : RawRecord} (h : recLE a b) : obLE a.blend b.blend := by
  rcases h with h | ⟨e, _⟩
  · exact blendLt_obLE h
  · rw [e]; exact obLE_refl _

lemma obLE_none_eq {y : Option ℚ} (h : obLE none y) : y = none := by
  rcases y with _ | w
  · rfl
  · exact h.elim

lemma blendLt_irrefl (a : Option ℚ) : ¬ blendLt a a := by
  rcases a with _ | x
  · exact fun h => h
  · exact lt_irrefl x

lemma sortRecords_pairwise (l : List RawRecord) : (sortRecords l).Pairwise recLE :=
  List.sorted_insertionSort recLE l

lemma sortRecords_perm (l : List RawRecord) : (sortRecords l).Perm l :=
  List.perm_insertionSort recLE l

/-! ### De-duplication lemmas -/

lemma dedupGo_sublist (l : List RawRecord) :
    ∀ seen, List.Sublist (dedupGo seen l) l := by
  induction l with
  | nil => intro _; exact List.Sublist.refl []
  | cons r rs ih =>
    intro seen
    unfold dedupGo
    by_cases h : seen.contains r.player = true
    · rw [if_pos h]; exact (ih seen).cons r
    · rw [if_neg h]; exact (ih _).cons₂ r

lemma dedupGo_not_seen (l : List RawRecord) :
    ∀ seen, ∀ b ∈ dedupGo seen l, seen.contains b.player = false := by
  induction l with
  | nil => intro seen b hb; exact absurd hb (List.not_mem_nil b)
  | cons r rs ih =>
    intro seen b hb
    unfold dedupGo at hb
    by_cases h : seen.contains r.player = true
    · rw [if_pos h] at hb; exact ih seen b hb
    · rw [if_neg h] at hb
      rcases List.mem_cons.mp hb with rfl | hb'
      · exact Bool.eq_false_iff.mpr h
      · have h2 := ih (r.player :: seen) b hb'
        rw [List.contains_cons] at h2
        exact (Bool.or_eq_false_iff.mp h2).2

lemma dedupGo_pairwise (l : List RawRecord) :
    ∀ seen, (dedupGo seen l).Pairwise (fun a b => a.player ≠ b.player) := by
  induction l with
  | nil => intro _; exact List.Pairwise.nil
  | cons r rs ih =>
    intro seen
    unfold dedupGo
    by_cases h : seen.contains r.player = true
    · rw [if_pos h]; exact ih seen
    · rw [if_neg h]
      refine List.pairwise_cons.mpr ⟨?_, ih _⟩
      intro b hb he
      have h2 := dedupGo_not_seen rs (r.player :: seen) b hb
      rw [List.contains_cons, ← he] at h2
      simp at h2

lemma dedupByPlayer_sublist (l : List RawRecord) :
    List.Sublist (dedupByPlayer l) l := dedupGo_sublist l []

lemma dedupByPlayer_pairwise (l : List RawRecord) :
    (dedupByPlayer l).Pairwise (fun a b => a.player ≠ b.player) := dedupGo_pairwise l []

/-! ### zipWith helpers for `attachRanks` -/

lemma zipWith_snd_eq {α β : Type} :
    ∀ (as : List α) (bs : List β), as.length = bs.length →
      List.zipWith (fun _ b => b) as bs = bs
  | [], [], _ => rfl
  | [], _ :: _, h => by simp at h
  | _ :: _, [], h => by simp at h
  | a :: as, b :: bs, h => by
    rw [List.zipWith_cons_cons, zipWith_snd_eq as bs (by simpa using h)]

lemma zipWith_fst_map {α β γ : Type} (f : α → γ) :
    ∀ (as : List α) (bs : List β), as.length = bs.length →
      List.zipWith (fun a _ => f a) as bs = as.map f
  | [], [], _ => rfl
  | [], _ :: _, h => by simp at h
  | _ :: _, [], h => by simp at h
  | a :: as, b :: bs, h => by
    rw [List.zipWith_cons_cons, List.map_cons, zipWith_fst_map f as bs (by simpa using h)]

lemma mem_zipWith_exists {α β γ : Type} {f : α → β → γ} :
    ∀ {as : List α} {bs : List β} {c : γ}, c ∈ List.zipWith f as bs →
      ∃ a b, a ∈ as ∧ b ∈ bs ∧ c = f a b := by
  intro as
  induction as with
  | nil => intro bs c hc; simp at hc
  | cons a as ih =>
    intro bs c hc
    rcases bs with _ | ⟨b, bs⟩
    · simp at hc
    · rw [List.zipWith_cons_cons] at hc
      rcases List.mem_cons.mp hc with rfl | hc'
      · exact ⟨a, b, List.mem_cons_self _ _, List.mem_cons_self _ _, rfl⟩
      · rcases ih hc' with ⟨a', b', ha', hb', he⟩
        exact ⟨a', b', List.mem_cons_of_mem _ ha', List.mem_cons_of_mem _ hb', he⟩

lemma pairwise_zipWith {α β γ : Type} {R : α → α → Prop} {S : γ → γ → Prop}
    (f : α → β → γ) :
    ∀ (as : List α) (bs : List β), as.Pairwise R →
      (∀ a a' b b', R a a' → S (f a b) (f a' b')) →
      (List.zipWith f as bs).Pairwise S := by
  intro as
  induction as with
  | nil => intro bs _ _; simp
  | cons a as ih =>
    intro bs h himp
    rcases bs with _ | ⟨b, bs⟩
    · simp
    · rw [List.zipWith_cons_cons]
      rcases List.pairwise_cons.mp h with ⟨ha, has⟩
      refine List.pairwise_cons.mpr ⟨?_, ih bs has himp⟩
      intro c hc
      rcases mem_zipWith_exists hc with ⟨a', b', ha', _, rfl⟩
      exact himp a a' b b' (ha a' ha')

/-! ### The rank column on a sorted list -/

lemma rankFirstAt_eq_none {xs : List (Option ℚ)} {i : Nat}
    (h : ∀ v : ℚ, xs[i]? ≠ some (some v)) : rankFirstAt xs i = none := by
  rcases hx : xs[i]? with _ | y
  · simp [rankFirstAt, hx]
  · rcases y with _ | v
    · simp [rankFirstAt, hx]
    · exact absurd hx (h v)

lemma pandasRankFirst_all_none {xs : List (Option ℚ)} (h : ∀ y ∈ xs, y = none) :
    pandasRankFirst xs = List.replicate xs.length none := by
  have hall : ∀ i ∈ List.range xs.length, rankFirstAt xs i = none := by
    intro i _
    apply rankFirstAt_eq_none
    intro v hv
    have hm : some v ∈ xs := List.getElem?_mem hv
    exact Option.noConfusion (h _ hm)
  calc pandasRankFirst xs
      = (List.range xs.length).map (fun _ => (none : Option Nat)) :=
        List.map_congr_left hall
    _ = List.replicate xs.length none := by
        rw [List.map_const', List.length_range]

lemma rankFirstAt_cons_zero {v : ℚ} {l : List (Option ℚ)}
    (h : ∀ y ∈ l, obLE (some v) y) :
    rankFirstAt (some v :: l) 0 = some 1 := by
  have hzero : l.countP (fun y => y.any (fun w => w < v)) = 0 := by
    apply List.countP_eq_zero.mpr
    intro y hy
    rcases y with _ | w
    · simp [Option.any]
    · have hvw : v ≤ w := h _ hy
      simp [Option.any, not_lt]
      exact hvw
  have hcons : (some v :: l).countP (fun y => y.any (fun w => w < v)) = 0 := by
    rw [List.countP_cons, hzero]
    simp [Option.any]
  simp [rankFirstAt, hcons]

lemma rankFirstAt_cons_succ {x : Option ℚ} {l : List (Option ℚ)} {i : Nat}
    (h : ∀ y ∈ l, obLE x y) :
    rankFirstAt (x :: l) (i + 1) = (rankFirstAt l i).map (fun k => k + 1) := by
  rcases hx : l[i]? with _ | y
  · simp [rankFirstAt, hx]
  · rcases y with _ | w
    · simp [rankFirstAt, hx]
    · have hw : some w ∈ l := List.getElem?_mem hx
      have hxw : obLE x (some w) := h _ hw
      rcases x with _ | v
      · exact hxw.elim
      · have hvw : v ≤ w := hxw
        have hle : ((some v : Option ℚ).any (fun w' => w' ≤ w)) = true := by
          simp [Option.any]
          exact hvw
        simp only [rankFirstAt, List.getElem?_cons_succ, hx, List.take_succ_cons,
          List.drop_succ_cons, List.countP_cons, hle, if_true, Option.map_some']
        simp only [Option.some.injEq]
        omega

lemma pandasRankFirst_sorted {xs : List (Option ℚ)} (h : xs.Pairwise obLE) :
    pandasRankFirst xs =
      (List.range (xs.countP (fun y => y.isSome))).map (fun i => some (i + 1)) ++
        List.replicate (xs.length - xs.countP (fun y => y.isSome)) none := by
  induction xs with
  | nil => rfl
  | cons x l ih =>
    rcases List.pairwise_cons.mp h with ⟨hhead, hl⟩
    rcases x with _ | v
    · have hall : ∀ y ∈ (none : Option ℚ) :: l, y = none := by
        intro y hy
        rcases List.mem_cons.mp hy with rfl | hy'
        · rfl
        · exact obLE_none_eq (hhead _ hy')
      have hcount : ((none : Option ℚ) :: l).countP (fun y => y.isSome) = 0 := by
        apply List.countP_eq_zero.mpr
        intro a ha
        rw [hall a ha]
        simp
      rw [pandasRankFirst_all_none hall, hcount]
      simp
    · have step : pandasRankFirst (some v :: l) =
          some 1 :: (pandasRankFirst l).map (fun o => o.map (fun k => k + 1)) := by
        unfold pandasRankFirst
        rw [List.length_cons, List.range_succ_eq_map, List.map_cons]
        congr 1
        · exact rankFirstAt_cons_zero hhead
        · rw [List.map_map, List.map_map]
          apply List.map_congr_left
          intro i _
          exact rankFirstAt_cons_succ hhead
      have hcount : ((some v : Option ℚ) :: l).countP (fun y => y.isSome) =
          l.countP (fun y => y.isSome) + 1 := by
        rw [List.countP_cons]
        simp
      have hmapfirst :
          ((List.range (l.countP (fun y => y.isSome))).map
              (fun i => some (i + 1))).map (fun o => o.map (fun k => k + 1)) =
            (List.range (l.countP (fun y => y.isSome))).map (fun i => some (i + 2)) := by
        rw [List.map_map]
        apply List.map_congr_left
        intro i _
        rfl
      have hrangesucc :
          (List.range (l.countP (fun y => y.isSome) + 1)).map (fun i => some (i + 1)) =
            some 1 :: (List.range (l.countP (fun y => y.isSome))).map
              (fun i => some (i + 2)) := by
        rw [List.range_succ_eq_map, List.map_cons, List.map_map]
        congr 1
      rw [step, ih hl, List.map_append, hmapfirst, List.map_replicate, hcount,
        hrangesucc, List.length_cons]
      have hlen : (l.length + 1) - (l.countP (fun y => y.isSome) + 1) =
          l.length - l.countP (fun y => y.isSome) := by omega
      rw [hlen]
      simp

/-! ### Facts about attachRanks and the two ingestion pipelines -/

lemma pandasRankFirst_length (xs : List (Option ℚ)) :
    (pandasRankFirst xs).length = xs.length := by
  simp [pandasRankFirst]

lemma attachRanks_length (rs : List RawRecord) :
    (attachRanks rs).length = rs.length := by
  rw [attachRanks, List.length_zipWith, pandasRankFirst_length, List.length_map]
  exact Nat.min_self _

lemma attachRanks_map_rank (rs : List RawRecord) :
    (attachRanks rs).map (fun e => e.adp_rank) =
      pandasRankFirst (rs.map (fun r => r.blend)) := by
  rw [attachRanks, List.map_zipWith]
  exact zipWith_snd_eq _ _ (by rw [pandasRankFirst_length, List.length_map])

lemma attachRanks_map_blend (rs : List RawRecord) :
    (attachRanks rs).map (fun e => e.blend) = rs.map (fun r => r.blend) := by
  rw [attachRanks, List.map_zipWith]
  exact zipWith_fst_map _ _ _ (by rw [pandasRankFirst_length, List.length_map])

lemma attachRanks_map_player (rs : List RawRecord) :
    (attachRanks rs).map (fun e => e.player) = rs.map (fun r => r.player) := by
  rw [attachRanks, List.map_zipWith]
  exact zipWith_fst_map _ _ _ (by rw [pandasRankFirst_length, List.length_map])

lemma attachRanks_pairwise_entryLE {rs : List RawRecord} (h : rs.Pairwise recLE) :
    (attachRanks rs).Pairwise entryLE := by
  apply pairwise_zipWith _ _ _ h
  intro a a' b b' hr
  exact hr

lemma attachRanks_pairwise_ne {rs : List RawRecord}
    (h : rs.Pairwise (fun a b => a.player ≠ b.player)) :
    (attachRanks rs).Pairwise (fun a b => a.player ≠ b.player) := by
  apply pairwise_zipWith _ _ _ h
  intro a a' b b' hr
  exact hr

lemma rankSpec_attach {rs : List RawRecord} (h : rs.Pairwise recLE) :
    rankSpec ⟨rosterColumns, attachRanks rs⟩ := by
  unfold rankSpec
  have hblend := attachRanks_map_blend rs
  have hsorted : (rs.map (fun r => r.blend)).Pairwise obLE :=
    (List.pairwise_map).mpr (h.imp recLE_obLE)
  have hcount : (attachRanks rs).countP (fun e => e.blend.isSome) =
      (rs.map (fun r => r.blend)).countP (fun y => y.isSome) := by
    rw [← hblend, List.countP_map]
    rfl
  show (attachRanks rs).map (fun e => e.adp_rank) = _
  rw [attachRanks_map_rank rs, pandasRankFirst_sorted hsorted]
  rw [hcount, attachRanks_length, List.length_map]

lemma sortedSpec_attach {rs : List RawRecord} (h : rs.Pairwise recLE) :
    sortedSpec ⟨rosterColumns, attachRanks rs⟩ := by
  have hpw := attachRanks_pairwise_entryLE h
  constructor
  · exact hpw.imp (fun hab => by
      rcases hab with h1 | ⟨e, _⟩
      · exact blendLt_obLE h1
      · rw [e]; exact obLE_refl _)
  · exact hpw.imp (fun hab => by
      intro he
      rcases hab with h1 | ⟨_, hp⟩
      · exact absurd (he ▸ h1) (blendLt_irrefl _)
      · exact hp)

lemma consolidate_take_pairwise (records : List RawRecord) :
    ((dedupByPlayer (sortRecords records)).take 300).Pairwise recLE :=
  ((sortRecords_pairwise records).sublist (dedupByPlayer_sublist _)).sublist
    (List.take_sublist _ _)

lemma consolidate_take_players_ne (records : List RawRecord) :
    ((dedupByPlayer (sortRecords records)).take 300).Pairwise
      (fun a b => a.player ≠ b.player) :=
  (dedupByPlayer_pairwise (sortRecords records)).sublist (List.take_sublist _ _)

lemma csv_take_pairwise (records : List RawRecord) :
    ((sortRecords records).take 300).Pairwise recLE :=
  (sortRecords_pairwise records).sublist (List.take_sublist _ _)

lemma rankSpec_empty : rankSpec emptyRoster := by
  unfold rankSpec emptyRoster
  rfl

lemma sortedSpec_empty : sortedSpec emptyRoster := by
  constructor <;> exact List.Pairwise.nil

lemma rankSpec_parse_pdf (avail : Bool) (pages : List Page) :
    rankSpec (parse_pdf_cached avail pages) := by
  unfold parse_pdf_cached
  rcases avail with _ | _
  · simpa using rankSpec_empty
  · simp only [Bool.true_eq_false, if_false]
    by_cases h : extractRows pages = []
    · rw [if_pos h]; exact rankSpec_empty
    · rw [if_neg h]; exact rankSpec_attach (consolidate_take_pairwise _)

lemma rankSpec_parse_csv (records : List RawRecord) :
    rankSpec (parse_csv records) :=
  rankSpec_attach (csv_take_pairwise records)

lemma sortedSpec_parse_pdf (avail : Bool) (pages : List Page) :
    sortedSpec (parse_pdf_cached avail pages) := by
  unfold parse_pdf_cached
  rcases avail with _ | _
  · simpa using sortedSpec_empty
  · simp only [Bool.true_eq_false, if_false]
    by_cases h : extractRows pages = []
    · rw [if_pos h]; exact sortedSpec_empty
    · rw [if_neg h]; exact sortedSpec_attach (consolidate_take_pairwise _)

lemma sortedSpec_parse_csv (records : List RawRecord) :
    sortedSpec (parse_csv records) :=
  sortedSpec_attach (csv_take_pairwise records)

/-! ## Claim theorems -/

/-- C1, counterexample: a CSV ingestion with one null-score row produces a
roster with N = 1 whose single entry has a null `ADP_Rank` — so not every
entry is assigned a rank, and the rank column is not the permutation
`[some 1]` of `1..N` that the claim requires (pandas `rank` keeps NaN ranks
for NaN scores). -/
theorem C1_counterexample :
    (parse_csv [⟨"Luka Doncic", "DAL", "PG", none⟩]).rows.map (fun e => e.adp_rank)
        = [none] ∧
      (parse_csv [⟨"Luka Doncic", "DAL", "PG", none⟩]).rows.map (fun e => e.adp_rank)
        ≠ [some 1] := by
  constructor <;> decide

/-- C1, amended: in every roster produced by either ingestion path, the
entries with a numeric score are assigned ranks `1..M` in row order (`M` the
number of such entries, consistent with the sort order, ties getting distinct
ranks in sort order), while entries with a null score receive a null rank. -/
theorem C1_rank_assignment :
    (∀ (avail : Bool) (pages : List Page), rankSpec (parse_pdf_cached avail pages)) ∧
      ∀ records, rankSpec (parse_csv records) :=
  ⟨rankSpec_parse_pdf, rankSpec_parse_csv⟩

/-- C2, counterexample: the CSV path performs no de-duplication, so two rows
with the same player name both survive into the roster. -/
theorem C2_counterexample :
    (parse_csv [⟨"Nikola Jokic", "DEN", "C", some 1⟩,
          ⟨"Nikola Jokic", "DEN", "C", some 2⟩]).rows.map (fun e => e.player)
        = ["Nikola Jokic", "Nikola Jokic"] ∧
      ¬ (parse_csv [⟨"Nikola Jokic", "DEN", "C", some 1⟩,
          ⟨"Nikola Jokic", "DEN", "C", some 2⟩]).rows.Pairwise
          (fun a b => a.player ≠ b.player) := by
  constructor <;> decide

/-- C2, amended: every roster produced by the PDF ingestion path has pairwise
distinct player values (the CSV path does not de-duplicate). -/
theorem C2_pdf_unique_players :
    ∀ (avail : Bool) (pages : List Page),
      (parse_pdf_cached avail pages).rows.Pairwise (fun a b => a.player ≠ b.player) := by
  intro avail pages
  unfold parse_pdf_cached
  rcases avail with _ | _
  · exact List.Pairwise.nil
  · simp only [Bool.true_eq_false, if_false]
    by_cases h : extractRows pages = []
    · rw [if_pos h]; exact List.Pairwise.nil
    · rw [if_neg h]
      exact attachRanks_pairwise_ne (consolidate_take_players_ne _)

/-- C3: for every roster and every drafted set, the player-name sets of
`remaining_df` and `drafted_df` partition the roster's player-name set: their
union is the full name set and their intersection is empty. -/
theorem C3_partition :
    ∀ (R : Roster) (D : Finset String),
      ((remaining_df R D).map (fun e => e.player)).toFinset ∪
          ((drafted_df R D).map (fun e => e.player)).toFinset =
        (R.rows.map (fun e => e.player)).toFinset ∧
      ((remaining_df R D).map (fun e => e.player)).toFinset ∩
          ((drafted_df R D).map (fun e => e.player)).toFinset = ∅ := by
  intro R D
  constructor
  · ext x
    simp only [Finset.mem_union, List.mem_toFinset, List.mem_map, remaining_df, drafted_df,
      List.mem_filter, Bool.not_eq_true', decide_eq_false_iff_not, decide_eq_true_eq]
    constructor
    · rintro (⟨e, ⟨he, _⟩, rfl⟩ | ⟨e, ⟨he, _⟩, rfl⟩) <;> exact ⟨e, he, rfl⟩
    · rintro ⟨e, he, rfl⟩
      by_cases hd : e.player ∈ D
      · exact Or.inr ⟨e, ⟨he, hd⟩, rfl⟩
      · exact Or.inl ⟨e, ⟨he, hd⟩, rfl⟩
  · ext x
    simp only [Finset.mem_inter, List.mem_toFinset, List.mem_map, remaining_df, drafted_df,
      List.mem_filter, Bool.not_eq_true', decide_eq_false_iff_not, decide_eq_true_eq,
      Finset.not_mem_empty, iff_false, not_and]
    rintro ⟨e, ⟨_, hnd⟩, rfl⟩ ⟨e', ⟨_, hd⟩, hpe⟩
    exact hnd (hpe ▸ hd)

/-- C4: `move_to_drafted` unions the selection into the drafted set, the
empty selection is a no-op, and applying it twice with the same selection
equals applying it once (idempotence / monotonicity). -/
theorem C4_move_to_drafted :
    ∀ (D X : Finset String),
      move_to_drafted D X = D ∪ X ∧
      move_to_drafted D ∅ = D ∧
      move_to_drafted (move_to_drafted D X) X = move_to_drafted D X := by
  intro D X
  refine ⟨rfl, Finset.union_empty D, ?_⟩
  show (D ∪ X) ∪ X = D ∪ X
  rw [Finset.union_assoc, Finset.union_self]

/-- C5: every roster produced by either ingestion path is ordered
non-decreasingly in score with null scores last, and non-decreasingly in
player name among entries with equal scores. -/
theorem C5_sorted :
    (∀ (avail : Bool) (pages : List Page), sortedSpec (parse_pdf_cached avail pages)) ∧
      ∀ records, sortedSpec (parse_csv records) :=
  ⟨sortedSpec_parse_pdf, sortedSpec_parse_csv⟩

/-- C6: consolidating two records named "Shai Gilgeous-Alexander" with scores
5.0 and 3.0 keeps exactly one entry with that name, the one with score 3.0 —
the sort puts the lowest score first and `drop_duplicates(keep="first")`
keeps it. -/
theorem C6_dedup_keeps_lowest :
    (consolidateRows [⟨"Shai Gilgeous-Alexander", "OKC", "PG", some 5⟩,
          ⟨"Shai Gilgeous-Alexander", "OKC", "PG", some 3⟩]).rows.map
        (fun e => (e.player, e.blend)) = [("Shai Gilgeous-Alexander", some 3)] := by
  decide

/-- C7: the text-line fallback extractor turns the single line
`"7. Luka Doncic (PG/SG) DAL 4.0"` into exactly one raw record with player
"Luka Doncic", team "DAL", position "PG/SG" and score 4.0. -/
theorem C7_text_line_scenario :
    extractTextRows "7. Luka Doncic (PG/SG) DAL 4.0" =
      [⟨"Luka Doncic", "DAL", "PG/SG", some 4⟩] := by
  decide

/-- C8: when the pdfplumber backend is unavailable, or when extraction yields
zero raw records, `parse_pdf_cached` returns the well-formed empty roster
carrying the full five-column schema, rather than an error. -/
theorem C8_empty_degradation :
    ∀ pages : List Page,
      parse_pdf_cached false pages = emptyRoster ∧
      (extractRows pages = [] → parse_pdf_cached true pages = emptyRoster) ∧
      emptyRoster.columns = ["Player", "Team", "Pos", "Blend", "ADP_Rank"] ∧
      emptyRoster.rows = [] := by
  intro pages
  refine ⟨rfl, ?_, rfl, rfl⟩
  intro h
  unfold parse_pdf_cached
  simp [h]

/-- C8, witness: on the empty page list extraction yields no rows and the
parser returns the empty roster. -/
theorem C8_witness :
    extractRows [] = [] ∧ parse_pdf_cached true [] = emptyRoster :=
  ⟨rfl, (C8_empty_degradation []).2.1 rfl⟩

/-- C9: every roster produced by either ingestion path has at most 300
rows. -/
theorem C9_cap300 :
    (∀ (avail : Bool) (pages : List Page),
        (parse_pdf_cached avail pages).rows.length ≤ 300) ∧
      ∀ records, (parse_csv records).rows.length ≤ 300 := by
  constructor
  · intro avail pages
    unfold parse_pdf_cached
    rcases avail with _ | _
    · simp [emptyRoster]
    · simp only [Bool.true_eq_false, if_false]
      by_cases h : extractRows pages = []
      · rw [if_pos h]; simp [emptyRoster]
      · rw [if_neg h]
        show (attachRanks _).length ≤ 300
        rw [attachRanks_length, List.length_take]
        exact min_le_left _ _
  · intro records
    show (attachRanks _).length ≤ 300
    rw [attachRanks_length, List.length_take]
    exact min_le_left _ _

/-- C10: the cell accessor `g` yields `None` on any out-of-range column
index, and a ragged data row whose team/pos/blend columns all lie beyond its
length is either skipped or emitted with empty team, empty position and a
null score. -/
theorem C10_ragged_row_safe :
    (∀ (r : List Cell) (idx : Nat), r.length ≤ idx → g r idx = none) ∧
      ∀ (ci : ColIdx) (r : List Cell),
        (∀ j, ci.team_idx = some j → r.length ≤ j) →
        (∀ j, ci.pos_idx = some j → r.length ≤ j) →
        (∀ j, ci.blend_idx = some j → r.length ≤ j) →
        processDataRow ci r = none ∨
          ∃ rec, processDataRow ci r = some rec ∧
            rec.team = "" ∧ rec.pos = "" ∧ rec.blend = none := by
  have hg : ∀ (r : List Cell) (idx : Nat), r.length ≤ idx → g r idx = none := by
    intro r idx h
    simp [g, List.getElem?_eq_none h]
  refine ⟨hg, ?_⟩
  intro ci r ht hp hb
  have hteam : (match ci.team_idx with
      | some j => pyClean (g r j)
      | none => "") = "" := by
    rcases hti : ci.team_idx with _ | j
    · rfl
    · simp only
      rw [hg r j (ht j hti)]
      rfl
  have hpos : (match ci.pos_idx with
      | some j => pyClean (g r j)
      | none => "") = "" := by
    rcases hpi : ci.pos_idx with _ | j
    · rfl
    · simp only
      rw [hg r j (hp j hpi)]
      rfl
  have hblendraw : (match ci.blend_idx with
      | some j => pyClean (g r j)
      | none => "") = "" := by
    rcases hbi : ci.blend_idx with _ | j
    · rfl
    · simp only
      rw [hg r j (hb j hbi)]
      rfl
  unfold processDataRow
  by_cases h1 : anyTruthy r = true
  · simp only [h1, Bool.not_true, Bool.false_eq_true, if_false]
    by_cases h2 : pyClean (g r ci.player_idx) = "" ∨
        (splitWs (pyClean (g r ci.player_idx)).data).length < 2
    · left
      rw [if_pos (by simpa using h2)]
    · right
      rw [if_neg (by simpa using h2)]
      refine ⟨_, rfl, hteam, hpos, ?_⟩
      show (if (match ci.blend_idx with
          | some j => pyClean (g r j)
          | none => "") = "" then none
          else firstNumber (match ci.blend_idx with
            | some j => pyClean (g r j)
            | none => "").data) = none
      rw [if_pos hblendraw]
  · left
    simp [h1]

/-- C10, witness: a one-cell row under a header that put team, pos and blend
at columns 5, 6 and 7 is emitted with empty team, empty position and a null
score. -/
theorem C10_witness :
    processDataRow ⟨0, some 5, some 6, some 7⟩ [some "Nikola Jokic"] = none ∨
      ∃ rec, processDataRow ⟨0, some 5, some 6, some 7⟩ [some "Nikola Jokic"] = some rec ∧
        rec.team = "" ∧ rec.pos = "" ∧ rec.blend = none :=
  C10_ragged_row_safe.2 ⟨0, some 5, some 6, some 7⟩ [some "Nikola Jokic"]
    (fun _ hj => Option.some.inj hj ▸
      (by decide : ([some "Nikola Jokic"] : List Cell).length ≤ 5))
    (fun _ hj => Option.some.inj hj ▸
      (by decide : ([some "Nikola Jokic"] : List Cell).length ≤ 6))
    (fun _ hj => Option.some.inj hj ▸
      (by decide : ([some "Nikola Jokic"] : List Cell).length ≤ 7))

end NBADraft
